import Mathlib

/-!
Shallow embedding of the server core of the absorb-chess repository
(`src/server/core/game.py`, `src/server/handlers/game_handler.py`,
`src/server/handlers/lobby_handler.py`, `src/server/server.py`) and proofs
about the behaviour claimed in the specification.

Conventions of the embedding:
* Python `None`-able values become `Option`; methods that return `True/False`
  after mutating state become functions returning the new state (`Option` when
  the `False` case leaves the state unchanged).
* Board squares are indexed by `Int` pairs exactly as the Python tuples are;
  `get_piece_at` / `set_piece_at` carry the same bounds guards as the source.
* Python's implicit call stack is made explicit with a `fuel : Nat` argument on
  the mutually recursive attack/validity functions (`_is_valid_king_move`'s
  castling branch calls `_square_attacked` / `_is_king_in_check`, which call
  back into `_is_valid_move_for_ability`).  Fuel only limits recursion depth,
  mirroring Python's recursion limit; every computation in this file stays far
  below the limit.
* Timestamps (`datetime` values, millisecond clocks) are modelled as `ℚ`.
-/

namespace AbsorbChess

/-- Modelled from the spec: `PieceType` of `server/core/enums.py` (the file is
referenced by the sources but absent from the repository snapshot); one of the
six chess kinds. -/
inductive PieceType
  | pawn
  | rook
  | knight
  | bishop
  | queen
  | king
deriving DecidableEq, Repr

/-- Modelled from the spec: `Color` of `server/core/enums.py`; white or black. -/
inductive Color
  | white
  | black
deriving DecidableEq, Repr

/-- The opposite color, used throughout the source as
`Color.BLACK if c == Color.WHITE else Color.WHITE`. -/
def Color.opposite : Color → Color
  | .white => .black
  | .black => .white

/-- `Piece` from `server/core/piece.py`. -/
structure Piece where
  type : PieceType
  color : Color
  abilities : List PieceType
  position : Int × Int
  has_moved : Bool
deriving DecidableEq, Repr

/-- The 8×8 board of `ChessGame.board`: a list of rows of optional pieces. -/
abbrev Board := List (List (Option Piece))

/-- `ChessGame.get_piece_at`: bounds-guarded cell read (a missing row — which
cannot happen on the 8×8 boards the source builds — reads as empty). -/
def get_piece_at (b : Board) (row col : Int) : Option Piece :=
  if 0 ≤ row ∧ row < 8 ∧ 0 ≤ col ∧ col < 8 then
    (((b.get? row.toNat).getD []).get? col.toNat).join
  else none

/-- `ChessGame.set_piece_at`: bounds-guarded cell write.  Direct assignments
`self.board[r][c] = x` in the source happen only at indices already validated
to be on the board, where they agree with this guarded write. -/
def set_piece_at (b : Board) (row col : Int) (p : Option Piece) : Board :=
  if 0 ≤ row ∧ row < 8 ∧ 0 ≤ col ∧ col < 8 then
    b.set row.toNat (((b.get? row.toNat).getD []).set col.toNat p)
  else b

/-- All `(row, col)` squares in the row-major order of the nested
`for row in range(8): for col in range(8)` loops of the source. -/
def allSquares : List (Int × Int) :=
  (List.range 8).flatMap (fun r => (List.range 8).map (fun c => ((r : Int), (c : Int))))

/-- `ChessGame._is_path_clear`'s while-loop, one fuel per iteration (at most 7
iterations are ever needed on the 8×8 board). -/
def path_clear_aux (b : Board) (to_row to_col row_step col_step : Int) :
    Nat → Int → Int → Bool
  | 0, _, _ => false
  | fuel + 1, cur_row, cur_col =>
    if cur_row = to_row ∧ cur_col = to_col then true
    else if (get_piece_at b cur_row cur_col).isSome then false
    else path_clear_aux b to_row to_col row_step col_step fuel
      (cur_row + row_step) (cur_col + col_step)

/-- `ChessGame._is_path_clear`. -/
def is_path_clear (b : Board) (fromPos toPos : Int × Int) : Bool :=
  let from_row := fromPos.1
  let from_col := fromPos.2
  let to_row := toPos.1
  let to_col := toPos.2
  let row_step : Int := if to_row = from_row then 0 else if to_row > from_row then 1 else -1
  let col_step : Int := if to_col = from_col then 0 else if to_col > from_col then 1 else -1
  path_clear_aux b to_row to_col row_step col_step 8 (from_row + row_step) (from_col + col_step)

/-- `ChessGame._is_valid_pawn_move`; `ep` is `self.en_passant_target`. -/
def is_valid_pawn_move (b : Board) (ep : Option (Int × Int)) (piece : Piece)
    (fromPos toPos : Int × Int) : Bool :=
  let from_row := fromPos.1
  let from_col := fromPos.2
  let to_row := toPos.1
  let to_col := toPos.2
  let direction : Int := if piece.color = .white then -1 else 1
  let start_row : Int := if piece.color = .white then 6 else 1
  if to_col = from_col ∧ to_row = from_row + direction then
    (get_piece_at b to_row to_col).isNone
  else if to_col = from_col ∧ from_row = start_row ∧ to_row = from_row + 2 * direction then
    (get_piece_at b to_row to_col).isNone && (get_piece_at b (from_row + direction) to_col).isNone
  else if (to_col - from_col).natAbs = 1 ∧ to_row = from_row + direction then
    match get_piece_at b to_row to_col with
    | some target =>
      if target.color ≠ piece.color then true
      else decide (ep = some (to_row, to_col))
    | none => decide (ep = some (to_row, to_col))
  else false

/-- `ChessGame._is_valid_rook_move`. -/
def is_valid_rook_move (b : Board) (piece : Piece) (fromPos toPos : Int × Int) : Bool :=
  let from_row := fromPos.1
  let from_col := fromPos.2
  let to_row := toPos.1
  let to_col := toPos.2
  if from_row ≠ to_row ∧ from_col ≠ to_col then false
  else if ¬ is_path_clear b fromPos toPos then false
  else
    match get_piece_at b to_row to_col with
    | some target => decide (target.color ≠ piece.color)
    | none => true

/-- `ChessGame._is_valid_knight_move`. -/
def is_valid_knight_move (b : Board) (piece : Piece) (fromPos toPos : Int × Int) : Bool :=
  let from_row := fromPos.1
  let from_col := fromPos.2
  let to_row := toPos.1
  let to_col := toPos.2
  let row_diff := (to_row - from_row).natAbs
  let col_diff := (to_col - from_col).natAbs
  if ¬ ((row_diff = 2 ∧ col_diff = 1) ∨ (row_diff = 1 ∧ col_diff = 2)) then false
  else if ¬ (0 ≤ to_row ∧ to_row < 8 ∧ 0 ≤ to_col ∧ to_col < 8) then false
  else
    match get_piece_at b to_row to_col with
    | some target => decide (target.color ≠ piece.color)
    | none => true

/-- `ChessGame._is_valid_bishop_move`. -/
def is_valid_bishop_move (b : Board) (piece : Piece) (fromPos toPos : Int × Int) : Bool :=
  let from_row := fromPos.1
  let from_col := fromPos.2
  let to_row := toPos.1
  let to_col := toPos.2
  if (to_row - from_row).natAbs ≠ (to_col - from_col).natAbs then false
  else if ¬ is_path_clear b fromPos toPos then false
  else
    match get_piece_at b to_row to_col with
    | some target => decide (target.color ≠ piece.color)
    | none => true

/-- `ChessGame._is_valid_queen_move`. -/
def is_valid_queen_move (b : Board) (piece : Piece) (fromPos toPos : Int × Int) : Bool :=
  is_valid_rook_move b piece fromPos toPos || is_valid_bishop_move b piece fromPos toPos

/-- The `for c in range(min+1, max)` emptiness scan inside
`_is_valid_king_move`'s castling branch (all relevant columns lie in 0..7). -/
def between_cols_empty (b : Board) (row lo hi : Int) : Bool :=
  (List.range 8).all (fun n =>
    if lo < (n : Int) ∧ (n : Int) < hi then (get_piece_at b row (n : Int)).isNone else true)

/-- `ChessGame._find_king`-style scan opening `_is_king_in_check`: the first
king of the given color in row-major order. -/
def find_king (b : Board) (king_color : Color) : Option (Int × Int) :=
  allSquares.find? (fun rc =>
    match get_piece_at b rc.1 rc.2 with
    | some p => p.type = .king && p.color = king_color
    | none => false)

mutual

/-- `ChessGame._is_valid_move_for_ability`. -/
def is_valid_move_for_ability (fuel : Nat) (b : Board) (ep : Option (Int × Int))
    (piece : Piece) (fromPos toPos : Int × Int) (ability : PieceType) : Bool :=
  match fuel with
  | 0 => false
  | fuel + 1 =>
    match ability with
    | .pawn => is_valid_pawn_move b ep piece fromPos toPos
    | .rook => is_valid_rook_move b piece fromPos toPos
    | .knight => is_valid_knight_move b piece fromPos toPos
    | .bishop => is_valid_bishop_move b piece fromPos toPos
    | .queen => is_valid_queen_move b piece fromPos toPos
    | .king => is_valid_king_move fuel b ep piece fromPos toPos

/-- `ChessGame._is_valid_king_move` (single-square move plus the castling
branch). -/
def is_valid_king_move (fuel : Nat) (b : Board) (ep : Option (Int × Int))
    (piece : Piece) (fromPos toPos : Int × Int) : Bool :=
  match fuel with
  | 0 => false
  | fuel + 1 =>
    let from_row := fromPos.1
    let from_col := fromPos.2
    let to_row := toPos.1
    let to_col := toPos.2
    let row_diff := (to_row - from_row).natAbs
    let col_diff := (to_col - from_col).natAbs
    if row_diff ≤ 1 ∧ col_diff ≤ 1 ∧ 0 < row_diff + col_diff then
      match get_piece_at b to_row to_col with
      | some target => decide (target.color ≠ piece.color)
      | none => true
    else if piece.has_moved ∨ from_row ≠ to_row ∨ (to_col - from_col).natAbs ≠ 2 then false
    else
      let direction : Int := if to_col > from_col then 1 else -1
      let rook_col : Int := if direction = 1 then 7 else 0
      match get_piece_at b from_row rook_col with
      | none => false
      | some rook =>
        if rook.type ≠ .rook ∨ rook.color ≠ piece.color ∨ rook.has_moved then false
        else if ¬ between_cols_empty b from_row (min from_col rook_col) (max from_col rook_col) then
          false
        else if is_king_in_check fuel b ep piece.color then false
        else if square_attacked fuel b ep (from_row, from_col + direction) piece.color then false
        else if square_attacked fuel b ep (from_row, from_col + 2 * direction) piece.color then false
        else true

/-- `ChessGame._square_attacked`. -/
def square_attacked (fuel : Nat) (b : Board) (ep : Option (Int × Int))
    (pos : Int × Int) (defender_color : Color) : Bool :=
  match fuel with
  | 0 => false
  | fuel + 1 =>
    let attacker_color := if defender_color = .white then Color.black else Color.white
    allSquares.any (fun rc =>
      match get_piece_at b rc.1 rc.2 with
      | some attacker =>
        if attacker.color = attacker_color then
          is_valid_move_for_ability fuel b ep attacker rc pos attacker.type ||
          attacker.abilities.any (fun a =>
            a ≠ attacker.type && is_valid_move_for_ability fuel b ep attacker rc pos a)
        else false
      | none => false)

/-- `ChessGame._is_king_in_check`: `false` when no king of the color is found. -/
def is_king_in_check (fuel : Nat) (b : Board) (ep : Option (Int × Int))
    (king_color : Color) : Bool :=
  match fuel with
  | 0 => false
  | fuel + 1 =>
    match find_king b king_color with
    | none => false
    | some king_pos =>
      let opponent_color := if king_color = .white then Color.black else Color.white
      allSquares.any (fun rc =>
        match get_piece_at b rc.1 rc.2 with
        | some piece =>
          piece.color = opponent_color && can_attack_king fuel b ep piece rc king_pos
        | none => false)

/-- `ChessGame._can_attack_king`. -/
def can_attack_king (fuel : Nat) (b : Board) (ep : Option (Int × Int))
    (piece : Piece) (fromPos kingPos : Int × Int) : Bool :=
  match fuel with
  | 0 => false
  | fuel + 1 =>
    piece.abilities.any (fun a => is_valid_move_for_ability fuel b ep piece fromPos kingPos a)

end

/-- Call-stack budget used at every top-level entry into the mutually
recursive validators; real positions use only a handful of levels. -/
def FUEL : Nat := 64

/-- A move-history record from `ChessGame.move_piece` (the `promoted_to` /
`final_piece` keys written during promotion resolution are not modelled; no
claim depends on them). -/
structure MoveRecord where
  fromPos : Int × Int
  toPos : Int × Int
  piece : PieceType
  captured : Option PieceType
  en_passant_captured : Option PieceType
  abilities_gained : Option PieceType
deriving DecidableEq, Repr

/-- The `promotion_pending` record `{'row', 'col', 'color', 'from'}` set by
`ChessGame.move_piece`. -/
structure PromotionPending where
  row : Int
  col : Int
  color : Color
  fromPos : Int × Int
deriving DecidableEq, Repr

/-- `ChessGame`'s mutable state (the `valid_moves` cache dictionary is not
modelled: on the paths treated here it is only ever cleared, never read). -/
structure ChessGame where
  board : Board
  current_turn : Color
  game_over : Bool
  winner : Option Color
  move_history : List MoveRecord
  white_king_in_check : Bool
  black_king_in_check : Bool
  en_passant_target : Option (Int × Int)
  promotion_pending : Option PromotionPending
deriving DecidableEq, Repr

/-- `ChessGame._is_valid_move` (used by `_has_legal_moves`).  Note the source's
final king-safety test runs `_is_king_in_check` on the **current** board: the
candidate move is not simulated there. -/
def is_valid_move (g : ChessGame) (piece : Piece) (fromPos toPos : Int × Int) : Bool :=
  let to_row := toPos.1
  let to_col := toPos.2
  if ¬ (0 ≤ to_row ∧ to_row < 8 ∧ 0 ≤ to_col ∧ to_col < 8) ∨ fromPos = toPos then false
  else
    let sameColorTarget : Bool :=
      match get_piece_at g.board to_row to_col with
      | some target => target.color = piece.color
      | none => false
    if sameColorTarget then false
    else if ¬ piece.abilities.any (fun a =>
        is_valid_move_for_ability FUEL g.board g.en_passant_target piece fromPos toPos a) then
      false
    else ¬ is_king_in_check FUEL g.board g.en_passant_target piece.color

/-- `ChessGame._has_legal_moves`. -/
def has_legal_moves (g : ChessGame) (color : Color) : Bool :=
  allSquares.any (fun rc =>
    match get_piece_at g.board rc.1 rc.2 with
    | some piece =>
      piece.color = color && allSquares.any (fun tc => is_valid_move g piece rc tc)
    | none => false)

/-- `ChessGame._would_move_put_king_in_check`: simulate the move on the board
and test check for the mover's color (the simulation is reverted in the source;
here it stays local). -/
def would_move_put_king_in_check (g : ChessGame) (piece : Piece)
    (fromPos toPos : Int × Int) : Bool :=
  let simBoard :=
    set_piece_at (set_piece_at g.board toPos.1 toPos.2 (some { piece with position := toPos }))
      fromPos.1 fromPos.2 none
  is_king_in_check FUEL simBoard g.en_passant_target piece.color

/-- `ChessGame.calculate_moves`: the legal-move map for the side to move, in
row-major order. -/
def calculate_moves (g : ChessGame) : List ((Int × Int) × List (Int × Int)) :=
  allSquares.filterMap (fun rc =>
    match get_piece_at g.board rc.1 rc.2 with
    | some piece =>
      if piece.color = g.current_turn then
        let valid_moves := allSquares.filterMap (fun tc =>
          if tc = rc then none
          else if piece.abilities.any (fun a =>
              is_valid_move_for_ability FUEL g.board g.en_passant_target piece rc tc a) then
            if would_move_put_king_in_check g piece rc tc then none else some tc
          else none)
        if valid_moves.isEmpty then none else some (rc, valid_moves)
      else none
    | none => none)

/-- `ChessGame._update_check_status`. -/
def update_check_status (g : ChessGame) : ChessGame :=
  let w := is_king_in_check FUEL g.board g.en_passant_target .white
  let bl := is_king_in_check FUEL g.board g.en_passant_target .black
  let g1 := { g with white_king_in_check := w, black_king_in_check := bl }
  if ¬ has_legal_moves g1 g1.current_turn then
    if (g1.current_turn = .white ∧ w) ∨ (g1.current_turn = .black ∧ bl) then
      { g1 with
        game_over := true
        winner := some (if g1.current_turn = .white then Color.black else Color.white) }
    else
      { g1 with game_over := true, winner := none }
  else g1

/-- `ChessGame._transfer_abilities`: append the captured kind unless present. -/
def transfer_abilities (capturing captured : Piece) : Piece :=
  if captured.type ∈ capturing.abilities then capturing
  else { capturing with abilities := capturing.abilities ++ [captured.type] }

/-- `ChessGame._update_en_passant_target`: the new target value after a move. -/
def update_en_passant_target (piece : Piece) (fromPos toPos : Int × Int) :
    Option (Int × Int) :=
  if piece.type = .pawn then
    let from_row := fromPos.1
    let from_col := fromPos.2
    let to_row := toPos.1
    let to_col := toPos.2
    let direction : Int := if piece.color = .white then -1 else 1
    let start_row : Int := if piece.color = .white then 6 else 1
    if from_row = start_row ∧ to_row = from_row + 2 * direction ∧ from_col = to_col then
      some (to_row - direction, to_col)
    else none
  else none

/-- The castling rook jump inside `ChessGame.move_piece` (lines 172–181),
executed on the board as it stands before the king itself is moved.  The
source re-runs `_is_valid_king_move` here on exactly the arguments the
validation call reached, hence the fuel `FUEL - 1`. -/
def castle_rook_jump (b : Board) (ep : Option (Int × Int)) (piece1 : Piece)
    (fromPos toPos : Int × Int) : Board :=
  let from_row := fromPos.1
  let from_col := fromPos.2
  let to_col := toPos.2
  if piece1.type = .king ∧ (to_col - from_col).natAbs = 2 ∧ from_row = toPos.1 then
    let direction : Int := if to_col > from_col then 1 else -1
    let rook_col : Int := if direction = 1 then 7 else 0
    match get_piece_at b from_row rook_col with
    | some rook =>
      if rook.type = .rook ∧ ¬ rook.has_moved ∧
          is_valid_king_move (FUEL - 1) b ep piece1 fromPos toPos then
        set_piece_at
          (set_piece_at b from_row (to_col - direction)
            (some { rook with position := (from_row, to_col - direction), has_moved := true }))
          from_row rook_col none
      else b
    | none => b
  else b

/-- The en-passant removal inside `ChessGame.move_piece` (lines 185–189):
the board after removing the passed pawn, and the removed piece. -/
def en_passant_removal (b : Board) (ep : Option (Int × Int)) (piece1 : Piece)
    (toPos : Int × Int) : Board × Option Piece :=
  if piece1.type = .pawn ∧ ep = some toPos then
    let en_passant_row := toPos.1 + (if piece1.color = .white then 1 else -1)
    match get_piece_at b en_passant_row toPos.2 with
    | some epc => (set_piece_at b en_passant_row toPos.2 none, some epc)
    | none => (b, (none : Option Piece))
  else (b, none)

/-- The mutation phase of `ChessGame.move_piece` (everything after validation
succeeded), as one pipeline: king-capture adjudication and ability transfer,
the castling rook jump, the en-passant removal, the actual placement, the
en-passant target / promotion / history updates, check status, turn switch. -/
def apply_move (g : ChessGame) (piece : Piece) (fromPos toPos : Int × Int) : ChessGame :=
  let from_row := fromPos.1
  let from_col := fromPos.2
  let to_row := toPos.1
  let to_col := toPos.2
  let captured := get_piece_at g.board to_row to_col
  let g1 :=
    match captured with
    | some c =>
      if c.type = PieceType.king then
        { g with game_over := true, winner := some piece.color }
      else g
    | none => g
  let piece1 :=
    match captured with
    | some c => transfer_abilities piece c
    | none => piece
  let board1 := castle_rook_jump g1.board g1.en_passant_target piece1 fromPos toPos
  let epPair := en_passant_removal board1 g1.en_passant_target piece1 toPos
  let board2 := epPair.1
  let en_passant_captured := epPair.2
  let piece2 := { piece1 with position := toPos, has_moved := true }
  let board3 := set_piece_at (set_piece_at board2 to_row to_col (some piece2)) from_row from_col none
  let ep1 := update_en_passant_target piece2 fromPos toPos
  let became_promotion : Bool := piece2.type = .pawn ∧ (to_row = 0 ∨ to_row = 7)
  let pp1 : Option PromotionPending :=
    if became_promotion then some ⟨to_row, to_col, piece2.color, fromPos⟩
    else g1.promotion_pending
  let record : MoveRecord :=
    { fromPos := fromPos, toPos := toPos, piece := piece2.type,
      captured := captured.map (·.type),
      en_passant_captured := en_passant_captured.map (·.type),
      abilities_gained := captured.map (·.type) }
  let g2 := { g1 with
    board := board3
    en_passant_target := ep1
    promotion_pending := pp1
    move_history := g1.move_history ++ [record] }
  let g3 := update_check_status g2
  if ¬ became_promotion then
    { g3 with current_turn := if g3.current_turn = .white then Color.black else Color.white }
  else g3

/-- `ChessGame.move_piece`: `none` models the `return False` paths (state
unchanged), `some` the successful application. -/
def move_piece (g : ChessGame) (fromPos toPos : Int × Int) : Option ChessGame :=
  let from_row := fromPos.1
  let from_col := fromPos.2
  let to_row := toPos.1
  let to_col := toPos.2
  match get_piece_at g.board from_row from_col with
  | none => none
  | some piece =>
    if piece.color ≠ g.current_turn then none
    else if ¬ (0 ≤ to_row ∧ to_row < 8 ∧ 0 ≤ to_col ∧ to_col < 8) ∨ fromPos = toPos then none
    else
      let sameColorTarget : Bool :=
        match get_piece_at g.board to_row to_col with
        | some target => target.color = piece.color
        | none => false
      if sameColorTarget then none
      else if ¬ piece.abilities.any (fun a =>
          is_valid_move_for_ability FUEL g.board g.en_passant_target piece fromPos toPos a) then
        none
      else
        let simBoard :=
          set_piece_at (set_piece_at g.board to_row to_col (some { piece with position := toPos }))
            from_row from_col none
        if is_king_in_check FUEL simBoard g.en_passant_target piece.color then none
        else some (apply_move g piece fromPos toPos)

/-- `ChessGame.cancel_promotion`: move the piece on the promotion square back
to its origin and clear `promotion_pending` — nothing else is restored. -/
def cancel_promotion (g : ChessGame) : Option ChessGame :=
  match g.promotion_pending with
  | none => none
  | some pp =>
    let from_row := pp.fromPos.1
    let from_col := pp.fromPos.2
    let pawn := get_piece_at g.board pp.row pp.col
    let board1 :=
      match pawn with
      | some p => set_piece_at g.board from_row from_col
          (some { p with position := (from_row, from_col) })
      | none => set_piece_at g.board from_row from_col none
    let board2 := set_piece_at board1 pp.row pp.col none
    some { g with board := board2, promotion_pending := none }

/-- The `clock` block of a lobby's `game_state` dictionary
(`white_ms`, `black_ms`, `increment_ms`, `last_turn_start`); timestamps and
millisecond amounts are modelled as rationals. -/
structure Clock where
  white_ms : ℚ
  black_ms : ℚ
  increment_ms : ℚ
  last_turn_start : Option ℚ
deriving DecidableEq, Repr

/-- A lobby's stored `game_state` dictionary: the serialized `ChessGame`
fields plus the clock block (the derived `valid_moves` /
`promotion_cancel_allowed` presentation fields are not modelled). -/
structure GameStateDict where
  board : Board
  current_turn : Color
  game_over : Bool
  winner : Option Color
  move_history : List MoveRecord
  white_king_in_check : Bool
  black_king_in_check : Bool
  en_passant_target : Option (Int × Int)
  promotion_pending : Option PromotionPending
  clock : Option Clock
deriving DecidableEq, Repr

/-- `ChessGame.load_from_state`: rebuild the game object from the stored
dictionary (the clock block lives only in the dictionary). -/
def load_from_state (gs : GameStateDict) : ChessGame :=
  { board := gs.board
    current_turn := gs.current_turn
    game_over := gs.game_over
    winner := gs.winner
    move_history := gs.move_history
    white_king_in_check := gs.white_king_in_check
    black_king_in_check := gs.black_king_in_check
    en_passant_target := gs.en_passant_target
    promotion_pending := gs.promotion_pending }

/-- `ChessGame.get_board_state` followed by the handler's clock merge
(`new_state['clock'] = game_state['clock']`). -/
def get_board_state (g : ChessGame) (clock : Option Clock) : GameStateDict :=
  { board := g.board
    current_turn := g.current_turn
    game_over := g.game_over
    winner := g.winner
    move_history := g.move_history
    white_king_in_check := g.white_king_in_check
    black_king_in_check := g.black_king_in_check
    en_passant_target := g.en_passant_target
    promotion_pending := g.promotion_pending
    clock := clock }

/-- The clock-update section of `GameHandler.handle_move` (lines 25–63),
which runs **before** the move is validated and mutates the lobby's
`game_state` dictionary in place.  When it is white's turn it decrements
(and, on timeout, adjudicates against, and increments) **black's** clock,
and symmetrically. -/
def clock_phase (gs : GameStateDict) (now : ℚ) : GameStateDict :=
  match gs.clock with
  | none => gs
  | some ck =>
    match ck.last_turn_start with
    | none => { gs with clock := some { ck with last_turn_start := some now } }
    | some t =>
      let elapsed := now - t
      if gs.current_turn = .white then
        let black1 := max 0 (ck.black_ms - elapsed)
        let go := if black1 = 0 then true else gs.game_over
        let w := if black1 = 0 then some Color.white else gs.winner
        let black2 := if ck.increment_ms ≠ 0 then black1 + ck.increment_ms else black1
        { gs with
          game_over := go
          winner := w
          clock := some { ck with black_ms := black2, last_turn_start := some now } }
      else
        let white1 := max 0 (ck.white_ms - elapsed)
        let go := if white1 = 0 then true else gs.game_over
        let w := if white1 = 0 then some Color.black else gs.winner
        let white2 := if ck.increment_ms ≠ 0 then white1 + ck.increment_ms else white1
        { gs with
          game_over := go
          winner := w
          clock := some { ck with white_ms := white2, last_turn_start := some now } }

/-- The diagnostic strings appended to `error_details` in
`GameHandler.handle_move`'s failure branch, as tagged values. -/
inductive MoveErrorDetail
  | noPieceAtSource (pos : Int × Int)
  | pieceAtSource (color : Color) (kind : PieceType)
  | pieceAbilities (abilities : List PieceType)
  | wrongTurn (current_turn piece_color : Color)
  | targetPiece (color : Color) (kind : PieceType)
  | cannotCaptureOwnPiece
  | outOfBounds (pos : Int × Int)
  | samePosition
  | notValidForAnyAbilities (abilities : List PieceType)
  | validForAbilities (abilities : List PieceType)
  | wouldPutOwnKingInCheck
deriving DecidableEq, Repr

/-- The `error_details` list built by `GameHandler.handle_move` (lines
122–181) when the move is rejected. -/
def build_error_details (game : ChessGame) (fromPos toPos : Int × Int) :
    List MoveErrorDetail :=
  let to_row := toPos.1
  let to_col := toPos.2
  let piece := get_piece_at game.board fromPos.1 fromPos.2
  let target := get_piece_at game.board to_row to_col
  let d1 :=
    match piece with
    | none => [MoveErrorDetail.noPieceAtSource fromPos]
    | some p =>
      [MoveErrorDetail.pieceAtSource p.color p.type, MoveErrorDetail.pieceAbilities p.abilities] ++
      (if p.color ≠ game.current_turn then [MoveErrorDetail.wrongTurn game.current_turn p.color]
       else [])
  let d2 :=
    match target with
    | some t =>
      [MoveErrorDetail.targetPiece t.color t.type] ++
      (match piece with
       | some p => if t.color = p.color then [MoveErrorDetail.cannotCaptureOwnPiece] else []
       | none => [])
    | none => []
  let d3 :=
    if ¬ (0 ≤ to_row ∧ to_row < 8 ∧ 0 ≤ to_col ∧ to_col < 8) then
      [MoveErrorDetail.outOfBounds toPos]
    else []
  let d4 := if fromPos = toPos then [MoveErrorDetail.samePosition] else []
  let d5 :=
    match piece with
    | none => []
    | some p =>
      let valids := p.abilities.filter (fun a =>
        is_valid_move_for_ability FUEL game.board game.en_passant_target p fromPos toPos a)
      if valids.isEmpty then [MoveErrorDetail.notValidForAnyAbilities p.abilities]
      else
        [MoveErrorDetail.validForAbilities valids] ++
        (let simBoard :=
          set_piece_at
            (set_piece_at game.board to_row to_col (some { p with position := toPos }))
            fromPos.1 fromPos.2 none
         if is_king_in_check FUEL simBoard game.en_passant_target p.color then
           [MoveErrorDetail.wouldPutOwnKingInCheck]
         else [])
  d1 ++ d2 ++ d3 ++ d4 ++ d5

/-- The `reason` strings of the handler's `game_over` responses. -/
inductive GameOverReason
  | checkmate
  | stalemate
deriving DecidableEq, Repr

/-- The possible replies of `GameHandler.handle_move` (response dictionaries
keyed by `type`).  `moveMade` carries the `valid_moves` map separately (the
source also embeds it, string-keyed, inside the game state). -/
inductive MoveResponse
  | invalidGameOver
  | invalidMove (details : List MoveErrorDetail) (fromPos toPos : Int × Int) (current_turn : Color)
  | promotionPending (game_state : GameStateDict)
  | gameOver (reason : GameOverReason) (game_state : GameStateDict)
  | moveMade (game_state : GameStateDict) (valid_moves : List ((Int × Int) × List (Int × Int)))
      (last_from last_to : Int × Int)
deriving DecidableEq, Repr

/-- `GameHandler.handle_move`: the reply, paired with the request-scoped
`game_state` dictionary as the handler body leaves it.  The dispatcher hands
the handler a lobby rebuilt from the persistent store for each request
(`GlobalState.get_lobby_by_client` reads it back from SQLite), so in-place
mutations such as the clock phase reach the stored lobby state only through
a reply state the dispatcher chooses to persist — see
`stored_state_after_move` below. -/
def handle_move (gs : GameStateDict) (now : ℚ) (fromPos toPos : Int × Int) :
    MoveResponse × GameStateDict :=
  let game := load_from_state gs
  if gs.game_over then (.invalidGameOver, gs)
  else
    let gs1 := clock_phase gs now
    match move_piece game fromPos toPos with
    | some game1 =>
      let new_state := get_board_state game1 gs1.clock
      if game1.promotion_pending.isSome then (.promotionPending new_state, gs1)
      else
        let valid_moves := calculate_moves game1
        if valid_moves.isEmpty then
          if (new_state.current_turn = .white ∧ new_state.white_king_in_check) ∨
              (new_state.current_turn = .black ∧ new_state.black_king_in_check) then
            let mate_winner : Option Color :=
              some (if new_state.current_turn = .white then Color.black else Color.white)
            (.gameOver .checkmate { new_state with winner := mate_winner }, gs1)
          else
            (.gameOver .stalemate { new_state with winner := none }, gs1)
        else (.moveMade new_state valid_moves fromPos toPos, gs1)
    | none =>
      (.invalidMove (build_error_details game fromPos toPos) fromPos toPos game.current_turn, gs1)

/-- Who a reply is delivered to by `GameServer.handle_message`. -/
inductive Recipients
  | senderOnly
  | allPlayers
  | currentTurnPlayerOnly
  | opponentPlusAckToSender
  | nobody
deriving DecidableEq, Repr

/-- The `move_piece` dispatch in `GameServer.handle_message` (lines 105–132):
only `promotion_pending` is restricted to the promoting player; every other
reply — `invalid_move` included — is sent to all players of the lobby. -/
def move_response_recipients : MoveResponse → Recipients
  | .promotionPending _ => .currentTurnPlayerOnly
  | _ => .allPlayers

/-- The same dispatch persists the reply's game state into the lobby only for
`move_made` and `promotion_pending` replies. -/
def move_response_persisted : MoveResponse → Bool
  | .moveMade _ _ _ _ => true
  | .promotionPending _ => true
  | _ => false

/-- The lobby's stored game state after a `move_piece` request is dispatched,
as a function of the state stored before it and the reply.  Per `server.py`
lines 112–120 only `move_made` and `promotion_pending` replies are written
back through `GlobalState.update_lobby_game_state`; on every other reply the
store is untouched, and since each request works on a lobby freshly rebuilt
from the store, the handler's request-scoped mutations are discarded. -/
def stored_state_after_move (stored : GameStateDict) : MoveResponse → GameStateDict
  | .moveMade new_state _ _ _ => new_state
  | .promotionPending new_state => new_state
  | _ => stored

/-- Python's `int()` conversion on a rational: truncation toward zero. -/
def pyInt (q : ℚ) : Int := if 0 ≤ q then ⌊q⌋ else ⌈q⌉

/-- The replies of `GameHandler.handle_offer_draw` (`None` is the source's
silent return when the offerer has no running game). -/
inductive DrawResponse
  | rateLimited (retry_after : Int)
  | drawOffered
  | noResponse
deriving DecidableEq, Repr

/-- `GameHandler.handle_offer_draw`: `history` is
`draw_offer_history[client_id]` (offer timestamps, in seconds), `lobby_gs`
the offerer's lobby game state if any.  Returns the reply, the stored history
afterwards, and the lobby game state afterwards (never modified here). -/
def handle_offer_draw (history : List ℚ) (now : ℚ) (lobby_gs : Option GameStateDict) :
    DrawResponse × List ℚ × Option GameStateDict :=
  let filtered := history.filter (fun t => now - t ≤ 60)
  if 3 ≤ filtered.length then
    (.rateLimited (60 - pyInt (now - filtered.headD 0)), filtered, lobby_gs)
  else
    let hist2 := filtered ++ [now]
    match lobby_gs with
    | none => (.noResponse, hist2, none)
    | some gs =>
      if gs.game_over then (.noResponse, hist2, some gs)
      else (.drawOffered, hist2, some gs)

/-- The `offer_draw` dispatch in `GameServer.handle_message` (lines 159–174):
`draw_offered` goes to the opponent with an ack to the offerer; a rate-limited
(or any other) reply goes back to the sender alone; `None` sends nothing. -/
def offer_draw_recipients : DrawResponse → Recipients
  | .drawOffered => .opponentPlusAckToSender
  | .rateLimited _ => .senderOnly
  | .noResponse => .nobody

/-- A seat of a lobby (`Player` / `BotPlayer` in `server/core/models.py`);
`has_websocket` models the `hasattr(p, 'websocket') and p.websocket` guard
(bots have no websocket). -/
structure LobbyPlayer where
  id : String
  name : String
  color : Color
  has_websocket : Bool
deriving DecidableEq, Repr

/-- The lobby fields involved in leaving (`code`, `owner_id`, `players`). -/
structure Lobby where
  code : String
  owner_id : String
  players : List LobbyPlayer
deriving DecidableEq, Repr

/-- Outcome of leaving: the lobby is removed, or it survives and each
remaining seated player is sent a `lobby_update` carrying a per-player
`is_owner` flag (this definition, like the source, notifies every remaining
player without a websocket guard). -/
inductive LeaveResult
  | lobbyRemoved
  | updated (lobby : Lobby) (notices : List (String × Bool))
deriving DecidableEq, Repr

/-- The `LobbyHandler.leave_lobby` that is effective at runtime: the class
defines the method twice and the second definition (lines 263–285) shadows
the first (lines 75–120), so the owner-transfer step of the first definition
never runs and `owner_id` is left unchanged. -/
def leave_lobby (lobby : Lobby) (client_id : String) : LeaveResult :=
  let players1 := lobby.players.filter (fun p => p.id ≠ client_id)
  if players1.isEmpty then .lobbyRemoved
  else
    .updated { lobby with players := players1 }
      (players1.map (fun p => (p.id, p.id = lobby.owner_id)))

/-- An empty board row. -/
def emptyRow : List (Option Piece) := [none, none, none, none, none, none, none, none]

/-- The empty 8×8 board. -/
def emptyBoard : Board :=
  [emptyRow, emptyRow, emptyRow, emptyRow, emptyRow, emptyRow, emptyRow, emptyRow]

/-- Place concrete pieces (each at its own `position`) on the empty board. -/
def place_pieces (ps : List Piece) : Board :=
  ps.foldl (fun b p => set_piece_at b p.position.1 p.position.2 (some p)) emptyBoard

/-- A fresh in-progress game over a given board and side to move. -/
def mkGame (b : Board) (turn : Color) : ChessGame :=
  { board := b
    current_turn := turn
    game_over := false
    winner := none
    move_history := []
    white_king_in_check := false
    black_king_in_check := false
    en_passant_target := none
    promotion_pending := none }

/-- Well-formedness of a board value: 8 rows of 8 cells, as every board built
by the source is. -/
def boardWF (b : Board) : Bool := b.length = 8 && b.all (fun r => r.length = 8)

theorem get_piece_at_some_bounds {b : Board} {r c : Int} {p : Piece}
    (h : get_piece_at b r c = some p) : 0 ≤ r ∧ r < 8 ∧ 0 ≤ c ∧ c < 8 := by
  by_contra hn
  unfold get_piece_at at h
  rw [if_neg hn] at h
  exact Option.noConfusion h

theorem boardWF_set (b : Board) (r c : Int) (p : Option Piece)
    (hwf : boardWF b = true) : boardWF (set_piece_at b r c p) = true := by
  unfold boardWF at hwf ⊢
  simp only [Bool.and_eq_true, decide_eq_true_eq, List.all_eq_true] at hwf ⊢
  obtain ⟨hlen, hrows⟩ := hwf
  unfold set_piece_at
  split
  · rename_i hin
    obtain ⟨hr0, hr8, _, _⟩ := hin
    have hrn : r.toNat < b.length := by omega
    cases hrow : b.get? r.toNat with
    | none =>
      exfalso
      rw [List.get?_eq_getElem?, List.getElem?_eq_none_iff] at hrow
      omega
    | some row =>
      refine ⟨by rw [List.length_set]; exact hlen, ?_⟩
      intro x hx
      rcases List.mem_or_eq_of_mem_set hx with hx | hx
      · exact hrows x hx
      · subst hx
        simp only [Option.getD_some, List.length_set]
        exact hrows row (List.get?_mem hrow)
  · exact ⟨hlen, hrows⟩

theorem get_set_same (b : Board) (r c : Int) (p : Option Piece)
    (hwf : boardWF b = true) (hb : 0 ≤ r ∧ r < 8 ∧ 0 ≤ c ∧ c < 8) :
    get_piece_at (set_piece_at b r c p) r c = p := by
  obtain ⟨hr0, hr8, hc0, hc8⟩ := hb
  unfold boardWF at hwf
  simp only [Bool.and_eq_true, decide_eq_true_eq, List.all_eq_true] at hwf
  obtain ⟨hlen, hrows⟩ := hwf
  have hrn : r.toNat < b.length := by omega
  unfold set_piece_at get_piece_at
  rw [if_pos ⟨hr0, hr8, hc0, hc8⟩, if_pos ⟨hr0, hr8, hc0, hc8⟩]
  cases hrow : b.get? r.toNat with
  | none =>
    exfalso
    rw [List.get?_eq_getElem?, List.getElem?_eq_none_iff] at hrow
    omega
  | some row =>
    have hrowlen : row.length = 8 := hrows row (List.get?_mem hrow)
    have hcn : c.toNat < row.length := by omega
    simp only [Option.getD_some]
    have hget : (b.set r.toNat (row.set c.toNat p)).get? r.toNat =
        some (row.set c.toNat p) := by
      rw [List.get?_eq_getElem?]
      exact List.getElem?_set_eq_of_lt _ hrn
    rw [hget]
    simp only [Option.getD_some]
    have hcell : (row.set c.toNat p).get? c.toNat = some p := by
      rw [List.get?_eq_getElem?]
      exact List.getElem?_set_eq_of_lt _ hcn
    rw [hcell]
    rfl

theorem get_set_other (b : Board) (r c : Int) (p : Option Piece) (r2 c2 : Int)
    (hne : (r2, c2) ≠ (r, c)) :
    get_piece_at (set_piece_at b r c p) r2 c2 = get_piece_at b r2 c2 := by
  unfold set_piece_at
  split
  · rename_i hin
    obtain ⟨hr0, hr8, hc0, hc8⟩ := hin
    by_cases hin2 : 0 ≤ r2 ∧ r2 < 8 ∧ 0 ≤ c2 ∧ c2 < 8
    · obtain ⟨h20, h28, h2c0, h2c8⟩ := hin2
      unfold get_piece_at
      rw [if_pos ⟨h20, h28, h2c0, h2c8⟩, if_pos ⟨h20, h28, h2c0, h2c8⟩]
      by_cases hr : r2 = r
      · subst hr
        have hc : c2 ≠ c := by
          intro h
          exact hne (by rw [h])
        rcases Nat.lt_or_ge r2.toNat b.length with hlt | hge
        · have hget : (b.set r2.toNat (((b.get? r2.toNat).getD []).set c.toNat p)).get? r2.toNat =
              some (((b.get? r2.toNat).getD []).set c.toNat p) := by
            rw [List.get?_eq_getElem?]
            exact List.getElem?_set_eq_of_lt _ hlt
          rw [hget]
          simp only [Option.getD_some]
          have hnat : c.toNat ≠ c2.toNat := by omega
          have hcell : ((((b.get? r2.toNat).getD [])).set c.toNat p).get? c2.toNat =
              ((b.get? r2.toNat).getD []).get? c2.toNat := by
            simp only [List.get?_eq_getElem?]
            exact List.getElem?_set_ne hnat
          rw [hcell]
        · rw [List.set_eq_of_length_le (by omega)]
      · have hnat : r.toNat ≠ r2.toNat := by omega
        have hget : (b.set r.toNat (((b.get? r.toNat).getD []).set c.toNat p)).get? r2.toNat =
            b.get? r2.toNat := by
          simp only [List.get?_eq_getElem?]
          exact List.getElem?_set_ne hnat
        rw [hget]
    · unfold get_piece_at
      rw [if_neg hin2, if_neg hin2]
  · rfl

theorem transfer_abilities_type (a b : Piece) : (transfer_abilities a b).type = a.type := by
  unfold transfer_abilities
  split <;> rfl

theorem transfer_abilities_color (a b : Piece) : (transfer_abilities a b).color = a.color := by
  unfold transfer_abilities
  split <;> rfl

theorem transfer_abilities_position (a b : Piece) :
    (transfer_abilities a b).position = a.position := by
  unfold transfer_abilities
  split <;> rfl

theorem transfer_abilities_mem (a b : Piece) :
    b.type ∈ (transfer_abilities a b).abilities := by
  unfold transfer_abilities
  split
  · assumption
  · simp

theorem transfer_abilities_superset (a b : Piece) (x : PieceType) (hx : x ∈ a.abilities) :
    x ∈ (transfer_abilities a b).abilities := by
  unfold transfer_abilities
  split
  · exact hx
  · simp [hx]

theorem update_check_status_preserves (g : ChessGame) :
    (update_check_status g).board = g.board ∧
    (update_check_status g).current_turn = g.current_turn ∧
    (update_check_status g).en_passant_target = g.en_passant_target ∧
    (update_check_status g).promotion_pending = g.promotion_pending ∧
    (update_check_status g).move_history = g.move_history := by
  unfold update_check_status
  dsimp only
  split
  · split <;> exact ⟨rfl, rfl, rfl, rfl, rfl⟩
  · exact ⟨rfl, rfl, rfl, rfl, rfl⟩

theorem update_check_status_flags (g : ChessGame) :
    (update_check_status g).white_king_in_check =
      is_king_in_check FUEL g.board g.en_passant_target .white ∧
    (update_check_status g).black_king_in_check =
      is_king_in_check FUEL g.board g.en_passant_target .black := by
  unfold update_check_status
  dsimp only
  split
  · split <;> exact ⟨rfl, rfl⟩
  · exact ⟨rfl, rfl⟩

theorem update_check_status_board (g : ChessGame) :
    (update_check_status g).board = g.board :=
  (update_check_status_preserves g).1

theorem update_check_status_current_turn (g : ChessGame) :
    (update_check_status g).current_turn = g.current_turn :=
  (update_check_status_preserves g).2.1

theorem update_check_status_en_passant (g : ChessGame) :
    (update_check_status g).en_passant_target = g.en_passant_target :=
  (update_check_status_preserves g).2.2.1

theorem update_check_status_promotion_pending (g : ChessGame) :
    (update_check_status g).promotion_pending = g.promotion_pending :=
  (update_check_status_preserves g).2.2.2.1

theorem update_check_status_history (g : ChessGame) :
    (update_check_status g).move_history = g.move_history :=
  (update_check_status_preserves g).2.2.2.2

theorem clock_phase_preserves (gs : GameStateDict) (now : ℚ) :
    (clock_phase gs now).board = gs.board ∧
    (clock_phase gs now).current_turn = gs.current_turn ∧
    (clock_phase gs now).en_passant_target = gs.en_passant_target ∧
    (clock_phase gs now).promotion_pending = gs.promotion_pending ∧
    (clock_phase gs now).move_history = gs.move_history ∧
    (clock_phase gs now).white_king_in_check = gs.white_king_in_check ∧
    (clock_phase gs now).black_king_in_check = gs.black_king_in_check := by
  unfold clock_phase
  cases gs.clock with
  | none => exact ⟨rfl, rfl, rfl, rfl, rfl, rfl, rfl⟩
  | some ck =>
    obtain ⟨wms, bms, inc, lts⟩ := ck
    cases lts with
    | none => exact ⟨rfl, rfl, rfl, rfl, rfl, rfl, rfl⟩
    | some t =>
      dsimp only
      split <;> exact ⟨rfl, rfl, rfl, rfl, rfl, rfl, rfl⟩

/-- Is the reply an `invalid_move` with diagnostic details? -/
def MoveResponse.isInvalidMove : MoveResponse → Bool
  | .invalidMove _ _ _ _ => true
  | _ => false

/-- Is the reply a `move_made`? -/
def MoveResponse.isMoveMade : MoveResponse → Bool
  | .moveMade _ _ _ _ => true
  | _ => false

/-- The game state carried by a reply, when it has one. -/
def MoveResponse.stateOf : MoveResponse → Option GameStateDict
  | .promotionPending st => some st
  | .gameOver _ st => some st
  | .moveMade st _ _ _ => some st
  | _ => none

/-- The in-check flag a `ChessGame` stores for a color
(`white_king_in_check` / `black_king_in_check`). -/
def check_flag (g : ChessGame) (c : Color) : Bool :=
  if c = .white then g.white_king_in_check else g.black_king_in_check

/-- C10: on any board holding no king of a given color, the check test for
that color returns false (the king scan finds nothing), and the check-status
update run after every move reports that side as not in check; being a total
Lean function, the computation never fails. -/
theorem kingless_side_never_in_check (g : ChessGame) (c : Color)
    (h : find_king g.board c = none) :
    is_king_in_check FUEL g.board g.en_passant_target c = false ∧
    check_flag (update_check_status g) c = false := by
  have hk : ∀ fuel ep, is_king_in_check fuel g.board ep c = false := by
    intro fuel ep
    cases fuel with
    | zero => rfl
    | succ n =>
      unfold is_king_in_check
      rw [h]
  refine ⟨hk _ _, ?_⟩
  have hflags := update_check_status_flags g
  cases c with
  | white =>
    have hproj : check_flag (update_check_status g) .white =
        (update_check_status g).white_king_in_check := rfl
    rw [hproj, hflags.1, hk]
  | black =>
    have hproj : check_flag (update_check_status g) .black =
        (update_check_status g).black_king_in_check := rfl
    rw [hproj, hflags.2, hk]

/-- Board for the C10 witness: only a black king. -/
def c10Game : ChessGame :=
  mkGame (place_pieces [⟨.king, .black, [.king], (0, 0), false⟩]) .white

/-- C10 witness: the kingless-side theorem applied to a concrete board with
no white king. -/
theorem kingless_side_never_in_check_witness :
    is_king_in_check FUEL c10Game.board c10Game.en_passant_target .white = false ∧
    check_flag (update_check_status c10Game) .white = false :=
  kingless_side_never_in_check c10Game .white (by decide)

/-- Lobby for the C8 evaluation: owner `alice` seated with `bob`. -/
def c8Lobby : Lobby :=
  { code := "AB12CD"
    owner_id := "alice"
    players := [⟨"alice", "Alice", .white, true⟩, ⟨"bob", "Bob", .black, true⟩] }

/-- C8: evaluating the effective `leave_lobby` (the second definition of the
method, which shadows the owner-transferring first definition) when the owner
leaves a two-seat lobby: the lobby survives with `owner_id` still `alice`,
and the remaining player `bob` is notified with `is_owner = false` — ownership
is not transferred, contradicting the stated behaviour. -/
theorem owner_leave_keeps_stale_owner :
    leave_lobby c8Lobby "alice" =
      .updated ⟨"AB12CD", "alice", [⟨"bob", "Bob", .black, true⟩]⟩ [("bob", false)] := by
  decide

/-- C9: a draw offer arriving while three accepted offers sit within the
rolling 60-second window is answered with `draw_offer_rate_limited` carrying
`retry_after = 60 - int(now - oldest_in_window)`; the reply goes to the sender
alone, and the lobby's game state is left untouched. -/
theorem fourth_draw_offer_rate_limited
    (history : List ℚ) (now : ℚ) (lobby_gs : Option GameStateDict)
    (h3 : 3 ≤ (history.filter (fun t => now - t ≤ 60)).length) :
    handle_offer_draw history now lobby_gs =
      (.rateLimited (60 - pyInt (now - (history.filter (fun t => now - t ≤ 60)).headD 0)),
       history.filter (fun t => now - t ≤ 60), lobby_gs) ∧
    offer_draw_recipients (handle_offer_draw history now lobby_gs).1 = .senderOnly := by
  have hmain : handle_offer_draw history now lobby_gs =
      (.rateLimited (60 - pyInt (now - (history.filter (fun t => now - t ≤ 60)).headD 0)),
       history.filter (fun t => now - t ≤ 60), lobby_gs) := by
    unfold handle_offer_draw
    rw [if_pos h3]
  refine ⟨hmain, ?_⟩
  rw [hmain]
  rfl

/-- C9 witness: the rate-limit theorem applied to three offers at times 0, 10
and 20 followed by a fourth at time 30 (retry_after evaluates to 30). -/
theorem fourth_draw_offer_rate_limited_witness :
    handle_offer_draw [0, 10, 20] 30 none =
      (.rateLimited
        (60 - pyInt (30 - (([0, 10, 20] : List ℚ).filter (fun t => 30 - t ≤ 60)).headD 0)),
       ([0, 10, 20] : List ℚ).filter (fun t => 30 - t ≤ 60), none) ∧
    offer_draw_recipients (handle_offer_draw [0, 10, 20] 30 none).1 = .senderOnly :=
  fourth_draw_offer_rate_limited [0, 10, 20] 30 none (by norm_num [List.filter])

/-- Pre-move lobby state for the C2 evaluation: white to move with 60 s on
white's clock, 5 s on black's, a 1 s increment, and 6 s of elapsed thinking
time about to be charged. -/
def c2Pre : GameStateDict :=
  { board := place_pieces
      [⟨.rook, .white, [.rook], (4, 4), false⟩, ⟨.rook, .black, [.rook], (0, 7), false⟩]
    current_turn := .white
    game_over := false
    winner := none
    move_history := []
    white_king_in_check := false
    black_king_in_check := false
    en_passant_target := none
    promotion_pending := none
    clock := some ⟨60000, 5000, 1000, some 0⟩ }

/-- The game resulting from white's accepted move in the C2 scenario. -/
def c2G1 : ChessGame :=
  (move_piece (load_from_state c2Pre) (4, 4) (4, 5)).getD (load_from_state c2Pre)

set_option maxHeartbeats 2000000 in
/-- C2: white (the side to move) plays an accepted, turn-switching move after
6 s of thinking, yet the handler leaves white's clock at 60000 ms untouched
and instead charges the 6 s to black — black's 5000 ms are exhausted, the
lobby is marked over with winner white, and black (not the mover) receives
the 1000 ms increment, ending at 1000 ms.  The specification requires the
mover's clock to be decremented and incremented. -/
theorem accepted_move_charges_opponent_clock :
    (handle_move c2Pre 6000 (4, 4) (4, 5)).1.isMoveMade = true ∧
    (handle_move c2Pre 6000 (4, 4) (4, 5)).1.stateOf.map
        (fun st => (st.current_turn, st.clock)) =
      some (Color.black, some ⟨60000, 1000, 1000, some 6000⟩) ∧
    (handle_move c2Pre 6000 (4, 4) (4, 5)).2.game_over = true ∧
    (handle_move c2Pre 6000 (4, 4) (4, 5)).2.winner = some Color.white := by
  have hclock : clock_phase c2Pre 6000 =
      { c2Pre with
        game_over := true
        winner := some Color.white
        clock := some ⟨60000, 1000, 1000, some 6000⟩ } := by
    unfold clock_phase c2Pre
    norm_num
  have hmv : move_piece (load_from_state c2Pre) (4, 4) (4, 5) = some c2G1 := by decide
  have hpp : c2G1.promotion_pending.isSome = false := by decide
  have hvm : (calculate_moves c2G1).isEmpty = false := by decide
  have hct : c2G1.current_turn = Color.black := by decide
  have hgo : c2Pre.game_over = false := rfl
  unfold handle_move
  rw [hgo]
  simp only [Bool.false_eq_true, if_false, hmv, hpp, hvm, hclock, hct,
    MoveResponse.isMoveMade, MoveResponse.stateOf, Option.map_some, get_board_state]
  refine ⟨?_, ?_, ?_, ?_⟩ <;> trivial

/-- Pre-move lobby state for the C3 counterexample: an empty board (so any
move request is invalid), white to move, both clocks at 60 s. -/
def c3Pre : GameStateDict :=
  { board := emptyBoard
    current_turn := .white
    game_over := false
    winner := none
    move_history := []
    white_king_in_check := false
    black_king_in_check := false
    en_passant_target := none
    promotion_pending := none
    clock := some ⟨60000, 60000, 0, some 0⟩ }

/-- C3 counterexample: a rejected `move_piece` request is answered with an
`invalid_move` reply and the lobby's stored game state is unchanged (nothing
is persisted on this path), but the dispatcher delivers that reply to every
player of the lobby — **not** to the sender only, as the claim states. -/
theorem rejected_move_reply_broadcast_to_all :
    (handle_move c3Pre 5000 (0, 0) (0, 1)).1.isInvalidMove = true ∧
    move_response_recipients (handle_move c3Pre 5000 (0, 0) (0, 1)).1 = .allPlayers ∧
    move_response_recipients (handle_move c3Pre 5000 (0, 0) (0, 1)).1 ≠ .senderOnly ∧
    stored_state_after_move c3Pre (handle_move c3Pre 5000 (0, 0) (0, 1)).1 = c3Pre := by
  have hmv : move_piece (load_from_state c3Pre) (0, 0) (0, 1) = none := by decide
  have hgo : c3Pre.game_over = false := rfl
  unfold handle_move
  rw [hgo]
  simp only [Bool.false_eq_true, if_false, hmv, MoveResponse.isInvalidMove,
    move_response_recipients, stored_state_after_move]
  refine ⟨?_, ?_, ?_, ?_⟩ <;> trivial

/-- Inversion of a successful `move_piece`: the validation facts its `some`
result guarantees, and the description of the result as `apply_move`. -/
theorem move_piece_inversion (g : ChessGame) (fromPos toPos : Int × Int) (g1 : ChessGame)
    (hmv : move_piece g fromPos toPos = some g1) :
    ∃ p, get_piece_at g.board fromPos.1 fromPos.2 = some p ∧
      p.color = g.current_turn ∧
      (0 ≤ toPos.1 ∧ toPos.1 < 8 ∧ 0 ≤ toPos.2 ∧ toPos.2 < 8) ∧
      fromPos ≠ toPos ∧
      (∀ t, get_piece_at g.board toPos.1 toPos.2 = some t → t.color ≠ p.color) ∧
      p.abilities.any (fun a =>
        is_valid_move_for_ability FUEL g.board g.en_passant_target p fromPos toPos a) = true ∧
      g1 = apply_move g p fromPos toPos := by
  unfold move_piece at hmv
  dsimp only at hmv
  cases hp : get_piece_at g.board fromPos.1 fromPos.2 with
  | none =>
    rw [hp] at hmv
    exact absurd hmv (by simp)
  | some p =>
    rw [hp] at hmv
    dsimp only at hmv
    refine ⟨p, rfl, ?_⟩
    split at hmv
    · exact absurd hmv (by simp)
    · split at hmv
      · exact absurd hmv (by simp)
      · rename_i hcolor hbad
        push_neg at hcolor hbad
        split at hmv
        · exact absurd hmv (by simp)
        · rename_i hsame
          split at hmv
          · exact absurd hmv (by simp)
          · rename_i hany
            split at hmv
            · exact absurd hmv (by simp)
            · refine ⟨hcolor, hbad.1, hbad.2, ?_, ?_, ?_⟩
              · intro t ht hcol
                rw [ht] at hsame
                simp [hcol] at hsame
              · simpa using hany
              · exact (Option.some_inj.mp hmv).symm

/-- Projection of `apply_move` on `promotion_pending` and `current_turn`: the
pending record is installed (and the turn kept) exactly when the mover is a
pawn by kind and lands on row 0 or row 7, whatever its color. -/
theorem apply_move_promotion_and_turn (g : ChessGame) (p : Piece) (fromPos toPos : Int × Int) :
    (apply_move g p fromPos toPos).promotion_pending =
      (if p.type = .pawn ∧ (toPos.1 = 0 ∨ toPos.1 = 7) then
        some ⟨toPos.1, toPos.2, p.color, fromPos⟩
      else g.promotion_pending) ∧
    (apply_move g p fromPos toPos).current_turn =
      (if p.type = .pawn ∧ (toPos.1 = 0 ∨ toPos.1 = 7) then g.current_turn
       else if g.current_turn = .white then Color.black else Color.white) := by
  unfold apply_move
  dsimp only
  cases hcap : get_piece_at g.board toPos.1 toPos.2 with
  | none =>
    by_cases hb : p.type = PieceType.pawn ∧ (toPos.1 = 0 ∨ toPos.1 = 7)
    · simp [hb, update_check_status_promotion_pending, update_check_status_current_turn]
    · simp [hb, update_check_status_promotion_pending, update_check_status_current_turn]
  | some c =>
    by_cases hb : p.type = PieceType.pawn ∧ (toPos.1 = 0 ∨ toPos.1 = 7)
    · simp [hb, transfer_abilities_type, transfer_abilities_color,
        update_check_status_promotion_pending, update_check_status_current_turn]
      split <;> simp [update_check_status_promotion_pending, update_check_status_current_turn]
    · simp [hb, transfer_abilities_type, transfer_abilities_color,
        update_check_status_promotion_pending, update_check_status_current_turn]
      split <;> simp [update_check_status_promotion_pending, update_check_status_current_turn]

/-- Game for the C5 counterexample: a white pawn that has absorbed the rook
ability, standing on its own second rank. -/
def c5Pre : ChessGame :=
  mkGame (place_pieces [⟨.pawn, .white, [.pawn, .rook], (6, 0), false⟩]) .white

/-- C5 counterexample: the white pawn slides backwards (rook ability) from
row 6 to row 7 — its own back rank — and the move sets `promotion_pending`
with the turn staying with white, although the claim says a white pawn
promotes only on row 0. -/
theorem white_pawn_promotes_on_own_back_rank :
    (move_piece c5Pre (6, 0) (7, 0)).map
        (fun g => (g.promotion_pending, g.current_turn)) =
      some (some ⟨7, 0, Color.white, (6, 0)⟩, Color.white) := by decide

/-- C5 (amended): an accepted move sets `promotion_pending` (with the turn not
switching) exactly when the moving piece is a pawn by kind and its destination
row is 0 or 7 — regardless of the pawn's color; in particular a white pawn
reaching row 7 (its own back rank, via an absorbed ability) also triggers
promotion. -/
theorem promotion_trigger_rows_zero_and_seven
    (g : ChessGame) (fromPos toPos : Int × Int) (p : Piece) (g1 : ChessGame)
    (hp : get_piece_at g.board fromPos.1 fromPos.2 = some p)
    (hmv : move_piece g fromPos toPos = some g1) :
    g1.promotion_pending =
      (if p.type = .pawn ∧ (toPos.1 = 0 ∨ toPos.1 = 7) then
        some ⟨toPos.1, toPos.2, p.color, fromPos⟩
      else g.promotion_pending) ∧
    g1.current_turn =
      (if p.type = .pawn ∧ (toPos.1 = 0 ∨ toPos.1 = 7) then g.current_turn
       else if g.current_turn = .white then Color.black else Color.white) := by
  obtain ⟨q, hq, _, _, _, _, _, happ⟩ := move_piece_inversion g fromPos toPos g1 hmv
  have hpq : q = p := by
    rw [hp] at hq
    exact (Option.some_inj.mp hq).symm
  subst hpq
  rw [happ]
  exact apply_move_promotion_and_turn g q fromPos toPos

/-- Game for the C5 witness: a black pawn one step from its last rank. -/
def c5wPre : ChessGame :=
  mkGame (place_pieces [⟨.pawn, .black, [.pawn], (6, 3), false⟩]) .black

set_option maxHeartbeats 4000000 in
/-- C5 witness: the promotion-trigger characterisation applied to a black pawn
moving from row 6 to row 7. -/
theorem promotion_trigger_rows_zero_and_seven_witness :
    ((move_piece c5wPre (6, 3) (7, 3)).getD c5wPre).promotion_pending =
      (if PieceType.pawn = .pawn ∧ ((7 : Int) = 0 ∨ (7 : Int) = 7) then
        some ⟨7, 3, Color.black, (6, 3)⟩
      else c5wPre.promotion_pending) ∧
    ((move_piece c5wPre (6, 3) (7, 3)).getD c5wPre).current_turn =
      (if PieceType.pawn = .pawn ∧ ((7 : Int) = 0 ∨ (7 : Int) = 7) then c5wPre.current_turn
       else if c5wPre.current_turn = .white then Color.black else Color.white) :=
  promotion_trigger_rows_zero_and_seven c5wPre (6, 3) (7, 3)
    ⟨.pawn, .black, [.pawn], (6, 3), false⟩
    ((move_piece c5wPre (6, 3) (7, 3)).getD c5wPre) (by decide) (by decide)

/-- Game for the C4 theorems: a white pawn about to capture a black knight on
the last rank, which triggers `promotion_pending`. -/
def c4Pre : ChessGame :=
  mkGame (place_pieces [⟨.pawn, .white, [.pawn], (1, 0), false⟩,
                        ⟨.knight, .black, [.knight], (0, 1), false⟩]) .white

/-- The C4 position after the promotion-triggering capture. -/
def c4Mid : ChessGame := (move_piece c4Pre (1, 0) (0, 1)).getD c4Pre

set_option maxHeartbeats 4000000 in
/-- C4 counterexample: after the pawn captures the knight on the promotion
square and the promotion is cancelled, the knight is **not** restored (its
square is empty), the pawn's ability set is still `[pawn, knight]` instead of
its pre-move `[pawn]`, the turn stays with white and `promotion_pending` is
cleared — so cancelling does not restore the pre-move state as claimed. -/
theorem cancel_promotion_does_not_restore_capture :
    (move_piece c4Pre (1, 0) (0, 1)).isSome = true ∧
    (cancel_promotion c4Mid).map (fun g =>
        (get_piece_at g.board 0 1, (get_piece_at g.board 1 0).map (·.abilities),
         g.current_turn, g.promotion_pending)) =
      some (none, some [.pawn, .knight], Color.white, none) := by decide

/-- C4 (amended): cancelling a pending promotion moves the piece standing on
the promotion square back to the origin square recorded in
`promotion_pending` (updating only its `position` field — its abilities keep
whatever the promoting move absorbed), clears both the promotion square and
`promotion_pending`, and leaves the turn, the history and **every other
square** unchanged; in particular a piece captured by the promoting move is
not restored. -/
theorem cancel_promotion_moves_piece_back_only
    (g : ChessGame) (pp : PromotionPending)
    (hpp : g.promotion_pending = some pp)
    (hwf : boardWF g.board = true)
    (hb1 : 0 ≤ pp.row ∧ pp.row < 8 ∧ 0 ≤ pp.col ∧ pp.col < 8)
    (hb2 : 0 ≤ pp.fromPos.1 ∧ pp.fromPos.1 < 8 ∧ 0 ≤ pp.fromPos.2 ∧ pp.fromPos.2 < 8)
    (hne : (pp.row, pp.col) ≠ pp.fromPos) :
    ∃ g2, cancel_promotion g = some g2 ∧
      g2.current_turn = g.current_turn ∧
      g2.move_history = g.move_history ∧
      g2.promotion_pending = none ∧
      get_piece_at g2.board pp.row pp.col = none ∧
      get_piece_at g2.board pp.fromPos.1 pp.fromPos.2 =
        (get_piece_at g.board pp.row pp.col).map
          (fun p => { p with position := (pp.fromPos.1, pp.fromPos.2) }) ∧
      (∀ r c, (r, c) ≠ (pp.row, pp.col) → (r, c) ≠ (pp.fromPos.1, pp.fromPos.2) →
        get_piece_at g2.board r c = get_piece_at g.board r c) := by
  have hfrom_ne : (pp.fromPos.1, pp.fromPos.2) ≠ (pp.row, pp.col) := by
    intro h
    apply hne
    have : pp.fromPos = (pp.fromPos.1, pp.fromPos.2) := rfl
    rw [this, h]
  unfold cancel_promotion
  rw [hpp]
  dsimp only
  cases hpawn : get_piece_at g.board pp.row pp.col with
  | none =>
    refine ⟨_, rfl, rfl, rfl, rfl, ?_, ?_, ?_⟩
    · exact get_set_same _ pp.row pp.col none
        (boardWF_set g.board pp.fromPos.1 pp.fromPos.2 none hwf) hb1
    · rw [get_set_other _ pp.row pp.col none pp.fromPos.1 pp.fromPos.2 hfrom_ne]
      rw [get_set_same g.board pp.fromPos.1 pp.fromPos.2 none hwf hb2]
      rfl
    · intro r c h1 h2
      rw [get_set_other _ pp.row pp.col none r c h1]
      rw [get_set_other g.board pp.fromPos.1 pp.fromPos.2 none r c h2]
  | some p =>
    refine ⟨_, rfl, rfl, rfl, rfl, ?_, ?_, ?_⟩
    · exact get_set_same _ pp.row pp.col none
        (boardWF_set g.board pp.fromPos.1 pp.fromPos.2 _ hwf) hb1
    · rw [get_set_other _ pp.row pp.col none pp.fromPos.1 pp.fromPos.2 hfrom_ne]
      rw [get_set_same g.board pp.fromPos.1 pp.fromPos.2 _ hwf hb2]
      rfl
    · intro r c h1 h2
      rw [get_set_other _ pp.row pp.col none r c h1]
      rw [get_set_other g.board pp.fromPos.1 pp.fromPos.2 _ r c h2]

set_option maxHeartbeats 4000000 in
/-- C4 witness: the cancellation theorem applied to the concrete
promotion-by-capture position `c4Mid`. -/
theorem cancel_promotion_moves_piece_back_only_witness :
    ∃ g2, cancel_promotion c4Mid = some g2 ∧
      g2.current_turn = c4Mid.current_turn ∧
      g2.move_history = c4Mid.move_history ∧
      g2.promotion_pending = none ∧
      get_piece_at g2.board (0 : Int) (1 : Int) = none ∧
      get_piece_at g2.board (1 : Int) (0 : Int) =
        (get_piece_at c4Mid.board (0 : Int) (1 : Int)).map
          (fun p => { p with position := ((1 : Int), (0 : Int)) }) ∧
      (∀ r c, (r, c) ≠ ((0 : Int), (1 : Int)) → (r, c) ≠ ((1 : Int), (0 : Int)) →
        get_piece_at g2.board r c = get_piece_at c4Mid.board r c) :=
  cancel_promotion_moves_piece_back_only c4Mid ⟨0, 1, .white, (1, 0)⟩
    (by decide) (by decide) (by decide) (by decide) (by decide)

theorem boardWF_castle_rook_jump (b : Board) (ep : Option (Int × Int)) (piece1 : Piece)
    (fromPos toPos : Int × Int) (hwf : boardWF b = true) :
    boardWF (castle_rook_jump b ep piece1 fromPos toPos) = true := by
  unfold castle_rook_jump
  dsimp only
  split
  · split
    · split
      · exact boardWF_set _ _ _ _ (boardWF_set _ _ _ _ hwf)
      · exact hwf
    · exact hwf
  · exact hwf

theorem boardWF_en_passant_removal (b : Board) (ep : Option (Int × Int)) (piece1 : Piece)
    (toPos : Int × Int) (hwf : boardWF b = true) :
    boardWF (en_passant_removal b ep piece1 toPos).1 = true := by
  unfold en_passant_removal
  dsimp only
  split
  · split
    · exact boardWF_set _ _ _ _ hwf
    · exact hwf
  · exact hwf

/-- After `apply_move`, the destination square holds the moved piece: the
mover with the captured piece's kind merged into its abilities (when a direct
capture happened), its position updated and `has_moved` set. -/
theorem apply_move_dest_piece (g : ChessGame) (p : Piece) (fromPos toPos : Int × Int)
    (hwf : boardWF g.board = true)
    (hb : 0 ≤ toPos.1 ∧ toPos.1 < 8 ∧ 0 ≤ toPos.2 ∧ toPos.2 < 8)
    (hne : fromPos ≠ toPos) :
    get_piece_at (apply_move g p fromPos toPos).board toPos.1 toPos.2 =
      some { (match get_piece_at g.board toPos.1 toPos.2 with
              | some c => transfer_abilities p c
              | none => p) with
             position := toPos, has_moved := true } := by
  have hne2 : (toPos.1, toPos.2) ≠ (fromPos.1, fromPos.2) := fun h => hne h.symm
  unfold apply_move
  dsimp only
  cases hcap : get_piece_at g.board toPos.1 toPos.2 with
  | none =>
    have hwfB : boardWF (en_passant_removal
        (castle_rook_jump g.board g.en_passant_target p fromPos toPos)
        g.en_passant_target p toPos).1 = true :=
      boardWF_en_passant_removal _ _ _ _ (boardWF_castle_rook_jump _ _ _ _ _ hwf)
    split
    all_goals
      rw [update_check_status_board]
      dsimp only
      rw [get_set_other _ fromPos.1 fromPos.2 none toPos.1 toPos.2 hne2,
          get_set_same _ toPos.1 toPos.2 _ hwfB hb]
  | some c =>
    dsimp only
    have hwfB : boardWF (en_passant_removal
        (castle_rook_jump g.board g.en_passant_target (transfer_abilities p c) fromPos toPos)
        g.en_passant_target (transfer_abilities p c) toPos).1 = true :=
      boardWF_en_passant_removal _ _ _ _ (boardWF_castle_rook_jump _ _ _ _ _ hwf)
    by_cases hk : c.type = PieceType.king
    all_goals
      first
      | simp only [if_pos hk]
      | simp only [if_neg hk]
      split
      all_goals
        rw [update_check_status_board]
        dsimp only
        rw [get_set_other _ fromPos.1 fromPos.2 none toPos.1 toPos.2 hne2,
            get_set_same _ toPos.1 toPos.2 _ hwfB hb]

/-- C7: for every applied capturing move the captured piece's kind ends up in
the capturer's ability set, and no ability is ever removed.  A direct capture
appends the captured kind when absent (`transfer_abilities`); an en-passant
capture transfers nothing in the source, but the removed piece is a pawn in
every state reachable through play (the target is only ever set by a pawn
double-step) and the capturer is a pawn by kind with `kind ∈ abilities`, so
the captured kind is already present — both stated as hypotheses here. -/
theorem capture_adds_captured_kind
    (g : ChessGame) (fromPos toPos : Int × Int) (p : Piece) (g1 : ChessGame)
    (hwf : boardWF g.board = true)
    (hp : get_piece_at g.board fromPos.1 fromPos.2 = some p)
    (hkind : p.type ∈ p.abilities)
    (hmv : move_piece g fromPos toPos = some g1) :
    ∃ p1, get_piece_at g1.board toPos.1 toPos.2 = some p1 ∧
      (∀ a, a ∈ p.abilities → a ∈ p1.abilities) ∧
      (∀ q, get_piece_at g.board toPos.1 toPos.2 = some q → q.type ∈ p1.abilities) ∧
      (∀ epc, p.type = .pawn → g.en_passant_target = some toPos →
        get_piece_at g.board (toPos.1 + (if p.color = .white then 1 else -1)) toPos.2 =
          some epc →
        epc.type = .pawn → epc.type ∈ p1.abilities) := by
  obtain ⟨q, hq, hcol, hbounds, hne, hsame, hany, happ⟩ :=
    move_piece_inversion g fromPos toPos g1 hmv
  have hpq : q = p := by
    rw [hp] at hq
    exact (Option.some_inj.mp hq).symm
  subst hpq
  have hdest := apply_move_dest_piece g q fromPos toPos hwf hbounds hne
  rw [← happ] at hdest
  refine ⟨_, hdest, ?_, ?_, ?_⟩
  · intro a ha
    cases hcap : get_piece_at g.board toPos.1 toPos.2 with
    | none => exact ha
    | some c => exact transfer_abilities_superset q c a ha
  · intro t ht
    rw [ht]
    exact transfer_abilities_mem q t
  · intro epc htype hep hepc hpawn
    rw [hpawn, ← htype]
    cases hcap : get_piece_at g.board toPos.1 toPos.2 with
    | none => exact hkind
    | some c => exact transfer_abilities_superset q c q.type hkind

/-- Game for the C7 witness: a white rook about to capture a black knight. -/
def c7Pre : ChessGame :=
  mkGame (place_pieces [⟨.rook, .white, [.rook], (4, 0), false⟩,
                        ⟨.knight, .black, [.knight], (4, 4), false⟩]) .white

set_option maxHeartbeats 4000000 in
/-- C7 witness: the absorption theorem applied to the concrete rook-takes-
knight capture. -/
theorem capture_adds_captured_kind_witness :
    ∃ p1, get_piece_at ((move_piece c7Pre (4, 0) (4, 4)).getD c7Pre).board
        ((4, 4) : Int × Int).1 ((4, 4) : Int × Int).2 = some p1 ∧
      (∀ a, a ∈ (⟨.rook, .white, [.rook], (4, 0), false⟩ : Piece).abilities →
        a ∈ p1.abilities) ∧
      (∀ q, get_piece_at c7Pre.board ((4, 4) : Int × Int).1 ((4, 4) : Int × Int).2 = some q →
        q.type ∈ p1.abilities) ∧
      (∀ epc, (⟨.rook, .white, [.rook], (4, 0), false⟩ : Piece).type = .pawn →
        c7Pre.en_passant_target = some ((4, 4) : Int × Int) →
        get_piece_at c7Pre.board (((4, 4) : Int × Int).1 +
          (if (⟨.rook, .white, [.rook], (4, 0), false⟩ : Piece).color = .white then 1 else -1))
          ((4, 4) : Int × Int).2 = some epc →
        epc.type = .pawn → epc.type ∈ p1.abilities) :=
  capture_adds_captured_kind c7Pre (4, 0) (4, 4) ⟨.rook, .white, [.rook], (4, 0), false⟩
    ((move_piece c7Pre (4, 0) (4, 4)).getD c7Pre)
    (by decide) (by decide) (by decide) (by decide)

/-- C3 (amended): every rejected `move_piece` request is answered with an
`invalid_move` reply carrying the diagnostic reason and details list, and
nothing is persisted to the lobby store, so the stored game state — in
particular the current turn and both players' clocks — is the same after the
request as before it; the dispatcher, however, sends the `invalid_move`
reply to every player of the lobby, not to the sender only. -/
theorem rejected_move_reply_and_stored_state
    (gs : GameStateDict) (now : ℚ) (fromPos toPos : Int × Int)
    (hgo : gs.game_over = false)
    (hmv : move_piece (load_from_state gs) fromPos toPos = none) :
    (handle_move gs now fromPos toPos).1 =
      .invalidMove (build_error_details (load_from_state gs) fromPos toPos) fromPos toPos
        gs.current_turn ∧
    move_response_persisted (handle_move gs now fromPos toPos).1 = false ∧
    stored_state_after_move gs (handle_move gs now fromPos toPos).1 = gs ∧
    move_response_recipients (handle_move gs now fromPos toPos).1 = .allPlayers := by
  have hresp : handle_move gs now fromPos toPos =
      (.invalidMove (build_error_details (load_from_state gs) fromPos toPos) fromPos toPos
        gs.current_turn,
       clock_phase gs now) := by
    unfold handle_move
    rw [hgo]
    simp only [Bool.false_eq_true, if_false, hmv]
    rfl
  rw [hresp]
  exact ⟨rfl, rfl, rfl, rfl⟩

/-- Lobby state for the C3 witness: a lone white knight and a running clock. -/
def c3wPre : GameStateDict :=
  { board := place_pieces [⟨.knight, .white, [.knight], (0, 0), false⟩]
    current_turn := .white
    game_over := false
    winner := none
    move_history := []
    white_king_in_check := false
    black_king_in_check := false
    en_passant_target := none
    promotion_pending := none
    clock := some ⟨30000, 30000, 2000, none⟩ }

/-- C3 witness: the rejected-move theorem applied to an illegal knight move
on a concrete lobby state. -/
theorem rejected_move_reply_and_stored_state_witness :
    (handle_move c3wPre 100 (0, 0) (4, 4)).1 =
      .invalidMove (build_error_details (load_from_state c3wPre) (0, 0) (4, 4)) (0, 0) (4, 4)
        c3wPre.current_turn ∧
    move_response_persisted (handle_move c3wPre 100 (0, 0) (4, 4)).1 = false ∧
    stored_state_after_move c3wPre (handle_move c3wPre 100 (0, 0) (4, 4)).1 = c3wPre ∧
    move_response_recipients (handle_move c3wPre 100 (0, 0) (4, 4)).1 = .allPlayers :=
  rejected_move_reply_and_stored_state c3wPre 100 (0, 0) (4, 4) rfl (by decide)

/-- The check flags of an `apply_move` result are exactly the check tests
recomputed on the result's board (via `_update_check_status`). -/
theorem apply_move_check_flags (g : ChessGame) (p : Piece) (fromPos toPos : Int × Int) :
    (apply_move g p fromPos toPos).white_king_in_check =
      is_king_in_check FUEL (apply_move g p fromPos toPos).board
        (apply_move g p fromPos toPos).en_passant_target .white ∧
    (apply_move g p fromPos toPos).black_king_in_check =
      is_king_in_check FUEL (apply_move g p fromPos toPos).board
        (apply_move g p fromPos toPos).en_passant_target .black := by
  unfold apply_move
  dsimp only
  split
  all_goals
    try dsimp only
    constructor
    · rw [update_check_status_board, update_check_status_en_passant,
        (update_check_status_flags _).1]
    · rw [update_check_status_board, update_check_status_en_passant,
        (update_check_status_flags _).2]

/-- The check flags after a successful `move_piece` are the check tests on
the post-move board. -/
theorem move_piece_check_flags (g : ChessGame) (fromPos toPos : Int × Int) (g1 : ChessGame)
    (hmv : move_piece g fromPos toPos = some g1) :
    g1.white_king_in_check = is_king_in_check FUEL g1.board g1.en_passant_target .white ∧
    g1.black_king_in_check = is_king_in_check FUEL g1.board g1.en_passant_target .black := by
  obtain ⟨p, _, _, _, _, _, _, happ⟩ := move_piece_inversion g fromPos toPos g1 hmv
  rw [happ]
  exact apply_move_check_flags g p fromPos toPos

/-- C1: when a move applied through the server's move path switches the turn
(no promotion is pending) and the side now to move has no legal moves, the
handler replies `game_over`: reason `checkmate` with winner the opposite
color when that side's stored check flag is set, reason `stalemate` with
winner `none` otherwise — and that stored flag equals the check test
recomputed on the post-move board. -/
theorem move_path_terminal_adjudication
    (gs : GameStateDict) (now : ℚ) (fromPos toPos : Int × Int) (g1 : ChessGame)
    (hgo : gs.game_over = false)
    (hmv : move_piece (load_from_state gs) fromPos toPos = some g1)
    (hpp : g1.promotion_pending = none)
    (hnm : calculate_moves g1 = []) :
    (handle_move gs now fromPos toPos).1 =
      (if check_flag g1 g1.current_turn then
        MoveResponse.gameOver .checkmate
          { get_board_state g1 (clock_phase gs now).clock with
            winner := some g1.current_turn.opposite }
      else
        MoveResponse.gameOver .stalemate
          { get_board_state g1 (clock_phase gs now).clock with winner := none }) ∧
    check_flag g1 g1.current_turn =
      is_king_in_check FUEL g1.board g1.en_passant_target g1.current_turn := by
  constructor
  · unfold handle_move
    rw [hgo]
    simp only [Bool.false_eq_true, if_false, hmv, hpp, hnm, Option.isSome_none,
      List.isEmpty_nil, if_true]
    cases hct : g1.current_turn with
    | white =>
      by_cases hch : g1.white_king_in_check = true
      · simp [get_board_state, hct, hch, check_flag, Color.opposite]
      · simp [get_board_state, hct, hch, check_flag, Color.opposite]
    | black =>
      by_cases hch : g1.black_king_in_check = true
      · simp [get_board_state, hct, hch, check_flag, Color.opposite]
      · simp [get_board_state, hct, hch, check_flag, Color.opposite]
  · have hflags := move_piece_check_flags (load_from_state gs) fromPos toPos g1 hmv
    cases hct : g1.current_turn with
    | white =>
      have hcf : check_flag g1 .white = g1.white_king_in_check := rfl
      rw [hcf, hflags.1]
    | black =>
      have hcf : check_flag g1 .black = g1.black_king_in_check := rfl
      rw [hcf, hflags.2]

/-- Lobby state for the C1 witness: white mates with queen to b7 supported by
the king (black king cornered on a8). -/
def c1Pre : GameStateDict :=
  { board := place_pieces
      [⟨.king, .black, [.king], (0, 0), false⟩,
       ⟨.king, .white, [.king], (2, 2), false⟩,
       ⟨.queen, .white, [.queen], (5, 1), false⟩]
    current_turn := .white
    game_over := false
    winner := none
    move_history := []
    white_king_in_check := false
    black_king_in_check := false
    en_passant_target := none
    promotion_pending := none
    clock := none }

/-- The position after white's mating queen move in the C1 scenario. -/
def c1G1 : ChessGame :=
  (move_piece (load_from_state c1Pre) (5, 1) (1, 1)).getD (load_from_state c1Pre)

set_option maxHeartbeats 8000000 in
/-- C1 witness: the adjudication theorem applied to a concrete mate-in-one. -/
theorem move_path_terminal_adjudication_witness :
    (handle_move c1Pre 0 (5, 1) (1, 1)).1 =
      (if check_flag c1G1 c1G1.current_turn then
        MoveResponse.gameOver .checkmate
          { get_board_state c1G1 (clock_phase c1Pre 0).clock with
            winner := some c1G1.current_turn.opposite }
      else
        MoveResponse.gameOver .stalemate
          { get_board_state c1G1 (clock_phase c1Pre 0).clock with winner := none }) ∧
    check_flag c1G1 c1G1.current_turn =
      is_king_in_check FUEL c1G1.board c1G1.en_passant_target c1G1.current_turn :=
  move_path_terminal_adjudication c1Pre 0 (5, 1) (1, 1) c1G1 rfl (by decide) (by decide)
    (by decide)

/-- Game for the C6 counterexample: a white king that has already moved and
has absorbed the rook ability; no rook anywhere. -/
def c6Pre : ChessGame :=
  mkGame (place_pieces [⟨.king, .white, [.king, .rook], (7, 4), true⟩]) .white

/-- C6 counterexample: the already-moved king's two-column move along its row
is accepted (as an ordinary slide via the absorbed rook ability) although the
castling preconditions fail — there is no rook and the king has moved — and
no rook appears on the crossed square. -/
theorem moved_king_slides_two_columns :
    (get_piece_at c6Pre.board 7 4).map (·.has_moved) = some true ∧
    (move_piece c6Pre (7, 4) (7, 6)).map (fun g =>
      ((get_piece_at g.board 7 6).map (·.type), (get_piece_at g.board 7 5).isSome,
       (get_piece_at g.board 7 7).isSome)) = some (some .king, false, false) := by decide

/-- Reading one square out of a successful between-squares emptiness scan. -/
theorem between_cols_empty_get (b : Board) (row lo hi c : Int)
    (h : between_cols_empty b row lo hi = true) (hc0 : 0 ≤ c) (hc8 : c < 8)
    (hlo : lo < c) (hhi : c < hi) : get_piece_at b row c = none := by
  unfold between_cols_empty at h
  rw [List.all_eq_true] at h
  have hmem : c.toNat ∈ List.range 8 := by
    rw [List.mem_range]
    omega
  have hc := h c.toNat hmem
  have hcast : ((c.toNat : Int)) = c := Int.toNat_of_nonneg hc0
  rw [hcast] at hc
  rw [if_pos ⟨hlo, hhi⟩] at hc
  simpa [Option.isNone_iff_eq_none] using hc

/-- C6 (amended): for a king whose ability set is exactly `[king]` (no
absorbed sliding ability), a two-column same-row move is accepted only when
every castling precondition holds — king unmoved, home-square rook of the
king's color present, unmoved and a rook by kind, squares strictly between
them empty, king not in check, and neither the crossed square nor the
destination attacked by any enemy piece using any of its abilities — and on
execution the rook lands on the square the king crossed.  (A king that has
absorbed a sliding ability can instead make the same two-column move as an
ordinary slide with none of these conditions and no rook jump, as the
counterexample shows.)  The fuel indices `FUEL - 2` are the depths at which
the source's recursive attack computation runs inside this validation. -/
theorem pure_king_two_column_move_is_castling
    (g : ChessGame) (fromPos toPos : Int × Int) (p : Piece) (g1 : ChessGame)
    (hwf : boardWF g.board = true)
    (hp : get_piece_at g.board fromPos.1 fromPos.2 = some p)
    (hk : p.type = .king) (hab : p.abilities = [.king])
    (hrow : fromPos.1 = toPos.1) (hcol : (toPos.2 - fromPos.2).natAbs = 2)
    (hmv : move_piece g fromPos toPos = some g1) :
    p.has_moved = false ∧
    (∃ rook, get_piece_at g.board fromPos.1
        (if toPos.2 > fromPos.2 then (7 : Int) else 0) = some rook ∧
      rook.type = .rook ∧ rook.color = p.color ∧ rook.has_moved = false ∧
      between_cols_empty g.board fromPos.1
        (min fromPos.2 (if toPos.2 > fromPos.2 then (7 : Int) else 0))
        (max fromPos.2 (if toPos.2 > fromPos.2 then (7 : Int) else 0)) = true ∧
      is_king_in_check (FUEL - 2) g.board g.en_passant_target p.color = false ∧
      square_attacked (FUEL - 2) g.board g.en_passant_target
        (fromPos.1, fromPos.2 + (if toPos.2 > fromPos.2 then (1 : Int) else -1))
        p.color = false ∧
      square_attacked (FUEL - 2) g.board g.en_passant_target
        (fromPos.1, fromPos.2 + 2 * (if toPos.2 > fromPos.2 then (1 : Int) else -1))
        p.color = false ∧
      get_piece_at g1.board fromPos.1
          (toPos.2 - (if toPos.2 > fromPos.2 then (1 : Int) else -1)) =
        some { rook with
               position := (fromPos.1,
                 toPos.2 - (if toPos.2 > fromPos.2 then (1 : Int) else -1))
               has_moved := true }) := by
  obtain ⟨q, hq, hcolr, hbounds, hne, hsame, hany, happ⟩ :=
    move_piece_inversion g fromPos toPos g1 hmv
  have hpq : q = p := by
    rw [hp] at hq
    exact (Option.some_inj.mp hq).symm
  subst hpq
  rw [hab] at hany
  simp only [List.any_cons, List.any_nil, Bool.or_false] at hany
  have hkm0 : is_valid_king_move 63 g.board g.en_passant_target q fromPos toPos = true := by
    have hF : FUEL = 63 + 1 := rfl
    rw [hF] at hany
    unfold is_valid_move_for_ability at hany
    exact hany
  have hkm := hkm0
  unfold is_valid_king_move at hkm
  dsimp only at hkm
  rw [if_neg (by omega)] at hkm
  by_cases hm : q.has_moved = true
  · rw [if_pos (Or.inl hm)] at hkm
    exact absurd hkm (by simp)
  refine ⟨by simpa using hm, ?_⟩
  rw [if_neg (by simp [hm, hrow, hcol])] at hkm
  have hfb := get_piece_at_some_bounds hp
  have hepr : ∀ B, (en_passant_removal B g.en_passant_target q toPos).1 = B := by
    intro B
    unfold en_passant_removal
    rw [if_neg (by simp [hk])]
  by_cases hdir : toPos.2 > fromPos.2
  case pos =>
    have hd1 : (if toPos.2 > fromPos.2 then (1 : Int) else -1) = 1 := if_pos hdir
    have hd7 : (if toPos.2 > fromPos.2 then (7 : Int) else 0) = 7 := if_pos hdir
    rw [hd1] at hkm
    rw [show (if (1 : Int) = 1 then (7 : Int) else 0) = 7 from by norm_num] at hkm
    rw [hd7, hd1]
    cases hrk : get_piece_at g.board fromPos.1 (7 : Int) with
    | none =>
      rw [hrk] at hkm
      exact absurd hkm (by simp)
    | some rook =>
      rw [hrk] at hkm
      dsimp only at hkm
      split at hkm
      · exact absurd hkm (by simp)
      rename_i hrq
      push_neg at hrq
      obtain ⟨hrt, hrc, hrm⟩ := hrq
      split at hkm
      · exact absurd hkm (by simp)
      rename_i hbet
      rw [not_not] at hbet
      split at hkm
      · exact absurd hkm (by simp)
      rename_i hchk
      split at hkm
      · exact absurd hkm (by simp)
      rename_i hat1
      split at hkm
      · exact absurd hkm (by simp)
      rename_i hat2
      have htc : toPos.2 = fromPos.2 + 2 := by omega
      by_cases h7 : toPos.2 = 7
      · exfalso
        have hcapr : get_piece_at g.board toPos.1 toPos.2 = some rook := by
          rw [← hrow, h7]
          exact hrk
        exact hsame rook hcapr (by rw [hrc])
      refine ⟨rook, rfl, hrt, hrc, by simpa using hrm, hbet, ?_, ?_, ?_, ?_⟩
      · simpa using hchk
      · simpa using hat1
      · simpa using hat2
      · have hlt7 : toPos.2 < 7 := by omega
        rw [min_eq_left (by omega), max_eq_right (by omega)] at hbet
        have hcap : get_piece_at g.board fromPos.1 toPos.2 = none :=
          between_cols_empty_get g.board fromPos.1 fromPos.2 7 toPos.2 hbet
            (by omega) (by omega) (by omega) (by omega)
        have hcap2 : get_piece_at g.board toPos.1 toPos.2 = none := by
          rw [← hrow]
          exact hcap
        have hcast : castle_rook_jump g.board g.en_passant_target q fromPos toPos =
            set_piece_at
              (set_piece_at g.board fromPos.1 (toPos.2 - 1)
                (some { rook with position := (fromPos.1, toPos.2 - 1), has_moved := true }))
              fromPos.1 7 none := by
          unfold castle_rook_jump
          dsimp only
          rw [if_pos ⟨hk, hcol, hrow⟩, hd1]
          rw [show (if (1 : Int) = 1 then (7 : Int) else 0) = 7 from by norm_num]
          rw [hrk]
          dsimp only
          rw [if_pos ⟨hrt, hrm, hkm0⟩]
        rw [happ]
        unfold apply_move
        dsimp only
        rw [hcap2]
        dsimp only
        split
        all_goals
          rw [update_check_status_board]
          dsimp only
          rw [get_set_other _ fromPos.1 fromPos.2 none fromPos.1 (toPos.2 - 1)
            (by intro hpe; rw [Prod.mk.injEq] at hpe; omega)]
          rw [get_set_other _ toPos.1 toPos.2 _ fromPos.1 (toPos.2 - 1)
            (by intro hpe; rw [Prod.mk.injEq] at hpe; omega)]
          rw [hepr, hcast]
          rw [get_set_other _ fromPos.1 7 none fromPos.1 (toPos.2 - 1)
            (by intro hpe; rw [Prod.mk.injEq] at hpe; omega)]
          rw [get_set_same _ fromPos.1 (toPos.2 - 1) _ hwf (by omega)]
  case neg =>
    have hd1 : (if toPos.2 > fromPos.2 then (1 : Int) else -1) = -1 := if_neg hdir
    have hd0 : (if toPos.2 > fromPos.2 then (7 : Int) else 0) = 0 := if_neg hdir
    rw [hd1] at hkm
    rw [show (if (-1 : Int) = 1 then (7 : Int) else 0) = 0 from by norm_num] at hkm
    rw [hd0, hd1]
    cases hrk : get_piece_at g.board fromPos.1 (0 : Int) with
    | none =>
      rw [hrk] at hkm
      exact absurd hkm (by simp)
    | some rook =>
      rw [hrk] at hkm
      dsimp only at hkm
      split at hkm
      · exact absurd hkm (by simp)
      rename_i hrq
      push_neg at hrq
      obtain ⟨hrt, hrc, hrm⟩ := hrq
      split at hkm
      · exact absurd hkm (by simp)
      rename_i hbet
      rw [not_not] at hbet
      split at hkm
      · exact absurd hkm (by simp)
      rename_i hchk
      split at hkm
      · exact absurd hkm (by simp)
      rename_i hat1
      split at hkm
      · exact absurd hkm (by simp)
      rename_i hat2
      have htc : toPos.2 = fromPos.2 - 2 := by omega
      by_cases h0 : toPos.2 = 0
      · exfalso
        have hcapr : get_piece_at g.board toPos.1 toPos.2 = some rook := by
          rw [← hrow, h0]
          exact hrk
        exact hsame rook hcapr (by rw [hrc])
      refine ⟨rook, rfl, hrt, hrc, by simpa using hrm, hbet, ?_, ?_, ?_, ?_⟩
      · simpa using hchk
      · simpa using hat1
      · simpa using hat2
      · have hgt0 : 0 < toPos.2 := by omega
        rw [min_eq_right (by omega), max_eq_left (by omega)] at hbet
        have hcap : get_piece_at g.board fromPos.1 toPos.2 = none :=
          between_cols_empty_get g.board fromPos.1 0 fromPos.2 toPos.2 hbet
            (by omega) (by omega) (by omega) (by omega)
        have hcap2 : get_piece_at g.board toPos.1 toPos.2 = none := by
          rw [← hrow]
          exact hcap
        have hcast : castle_rook_jump g.board g.en_passant_target q fromPos toPos =
            set_piece_at
              (set_piece_at g.board fromPos.1 (toPos.2 - -1)
                (some { rook with position := (fromPos.1, toPos.2 - -1), has_moved := true }))
              fromPos.1 0 none := by
          unfold castle_rook_jump
          dsimp only
          rw [if_pos ⟨hk, hcol, hrow⟩, hd1]
          rw [show (if (-1 : Int) = 1 then (7 : Int) else 0) = 0 from by norm_num]
          rw [hrk]
          dsimp only
          rw [if_pos ⟨hrt, hrm, hkm0⟩]
        rw [happ]
        unfold apply_move
        dsimp only
        rw [hcap2]
        dsimp only
        split
        all_goals
          rw [update_check_status_board]
          dsimp only
          rw [get_set_other _ fromPos.1 fromPos.2 none fromPos.1 (toPos.2 - -1)
            (by intro hpe; rw [Prod.mk.injEq] at hpe; omega)]
          rw [get_set_other _ toPos.1 toPos.2 _ fromPos.1 (toPos.2 - -1)
            (by intro hpe; rw [Prod.mk.injEq] at hpe; omega)]
          rw [hepr, hcast]
          rw [get_set_other _ fromPos.1 0 none fromPos.1 (toPos.2 - -1)
            (by intro hpe; rw [Prod.mk.injEq] at hpe; omega)]
          rw [get_set_same _ fromPos.1 (toPos.2 - -1) _ hwf (by omega)]


/-- Game for the C6 witness: a legal white kingside castle. -/
def c6wPre : ChessGame :=
  mkGame (place_pieces [⟨.king, .white, [.king], (7, 4), false⟩,
                        ⟨.rook, .white, [.rook], (7, 7), false⟩]) .white

set_option maxHeartbeats 8000000 in
/-- C6 witness: the castling characterisation applied to a concrete legal
kingside castle. -/
theorem pure_king_two_column_move_is_castling_witness :
    (⟨.king, .white, [.king], (7, 4), false⟩ : Piece).has_moved = false ∧
    (∃ rook, get_piece_at c6wPre.board ((7, 4) : Int × Int).1
        (if ((7, 6) : Int × Int).2 > ((7, 4) : Int × Int).2 then (7 : Int) else 0) = some rook ∧
      rook.type = .rook ∧ rook.color = (⟨.king, .white, [.king], (7, 4), false⟩ : Piece).color ∧
      rook.has_moved = false ∧
      between_cols_empty c6wPre.board ((7, 4) : Int × Int).1
        (min ((7, 4) : Int × Int).2
          (if ((7, 6) : Int × Int).2 > ((7, 4) : Int × Int).2 then (7 : Int) else 0))
        (max ((7, 4) : Int × Int).2
          (if ((7, 6) : Int × Int).2 > ((7, 4) : Int × Int).2 then (7 : Int) else 0)) = true ∧
      is_king_in_check (FUEL - 2) c6wPre.board c6wPre.en_passant_target
        (⟨.king, .white, [.king], (7, 4), false⟩ : Piece).color = false ∧
      square_attacked (FUEL - 2) c6wPre.board c6wPre.en_passant_target
        (((7, 4) : Int × Int).1, ((7, 4) : Int × Int).2 +
          (if ((7, 6) : Int × Int).2 > ((7, 4) : Int × Int).2 then (1 : Int) else -1))
        (⟨.king, .white, [.king], (7, 4), false⟩ : Piece).color = false ∧
      square_attacked (FUEL - 2) c6wPre.board c6wPre.en_passant_target
        (((7, 4) : Int × Int).1, ((7, 4) : Int × Int).2 +
          2 * (if ((7, 6) : Int × Int).2 > ((7, 4) : Int × Int).2 then (1 : Int) else -1))
        (⟨.king, .white, [.king], (7, 4), false⟩ : Piece).color = false ∧
      get_piece_at ((move_piece c6wPre (7, 4) (7, 6)).getD c6wPre).board ((7, 4) : Int × Int).1
          (((7, 6) : Int × Int).2 -
            (if ((7, 6) : Int × Int).2 > ((7, 4) : Int × Int).2 then (1 : Int) else -1)) =
        some { rook with
               position := (((7, 4) : Int × Int).1,
                 ((7, 6) : Int × Int).2 -
                   (if ((7, 6) : Int × Int).2 > ((7, 4) : Int × Int).2 then (1 : Int) else -1))
               has_moved := true }) :=
  pure_king_two_column_move_is_castling c6wPre ((7, 4) : Int × Int) ((7, 6) : Int × Int)
    ⟨.king, .white, [.king], (7, 4), false⟩
    ((move_piece c6wPre (7, 4) (7, 6)).getD c6wPre)
    (by decide) (by decide) (by decide) (by decide) (by decide) (by decide) (by decide)

end AbsorbChess
